/-
Verification of the RadGraph serialization core
(repository `style-aware-report-generation`, files
`report-radgraph-serialization/graph_report.py` and
`report-radgraph-serialization/utils.py`).

The Python code is shallowly embedded: dictionaries become association
lists (insertion-ordered, unique keys, first-match lookup), raised
exceptions become `Except PyErr`, and Python's string primitives
(`str.split(" ")`, `str.strip()`, `",".join`, `int(...)`, substring
containment `in`, lexicographic string comparison) are re-implemented by
structural recursion over `List Char` so that every definition evaluates
inside the kernel.
-/
import Mathlib

namespace RadGraph

/-! ### Python string primitives -/

/-- Python substring containment `pat in s`, on character lists. -/
def containsSubAux (pat : List Char) : List Char → Bool
  | [] => pat.isEmpty
  | c :: rest => pat.isPrefixOf (c :: rest) || containsSubAux pat rest

/-- Python substring containment `pat in s` for strings. -/
def containsSub (s pat : String) : Bool :=
  containsSubAux pat.data s.data

/-- Auxiliary for `pySplitChar`: accumulates the current token reversed. -/
def splitCharAux (sep : Char) : List Char → List Char → List String
  | [], cur => [String.mk cur.reverse]
  | c :: rest, cur =>
      if c = sep then String.mk cur.reverse :: splitCharAux sep rest []
      else splitCharAux sep rest (c :: cur)

/-- Python `s.split(sep)` for a one-character separator (empty string
yields `[""]`, consecutive separators yield empty tokens). -/
def pySplitChar (sep : Char) (s : String) : List String :=
  splitCharAux sep s.data []

/-- Python `s.split(" ")`. -/
def pySplitSpace (s : String) : List String :=
  pySplitChar ' ' s

/-- Python `s.strip()`: remove leading and trailing whitespace. -/
def pyStrip (s : String) : String :=
  String.mk (((s.data.dropWhile Char.isWhitespace).reverse.dropWhile Char.isWhitespace).reverse)

/-- Lexicographic comparison of character lists by code point. -/
def charListLE : List Char → List Char → Bool
  | [], _ => true
  | _ :: _, [] => false
  | a :: as, b :: bs => if a = b then charListLE as bs else decide (a < b)

/-- Python string comparison `a <= b` (lexicographic by code point). -/
def pyStrLE (a b : String) : Bool :=
  charListLE a.data b.data

/-- Python `sep.join(l)`. -/
def pyJoinSep (sep : String) : List String → String
  | [] => ""
  | [x] => x
  | x :: y :: rest => x ++ sep ++ pyJoinSep sep (y :: rest)

/-- Digits of a decimal numeral to a natural number. -/
def natOfDigits : List Char → Nat → Nat
  | [], acc => acc
  | c :: rest, acc => natOfDigits rest (acc * 10 + (c.toNat - 48))

/-- Python `int(s)` on the well-formed (decimal, optionally negative)
numerals that occur as RadGraph entity ids. -/
def pyIntOf (s : String) : Int :=
  match s.data with
  | '-' :: rest => - (Int.ofNat (natOfDigits rest 0))
  | l => Int.ofNat (natOfDigits l 0)

/-- Python `s.isnumeric()` restricted to ASCII: nonempty and all digits. -/
def pyIsNumeric (s : String) : Bool :=
  !s.data.isEmpty && s.data.all Char.isDigit

/-- Python `s.isupper()` restricted to ASCII: at least one cased character
and every cased character uppercase. -/
def pyIsUpper (s : String) : Bool :=
  s.data.any Char.isAlpha && s.data.all (fun c => !c.isAlpha || c.isUpper)

/-! ### Python `sorted` (stable sort by key)

Python's `sorted(l, key = k)` is the stable sort of `l` by the key
values.  A stable sort is implemented as insertion sort: an element is
inserted before the first position whose key is strictly larger, so
elements with equal keys keep their original relative order. -/

/-- Insert `x` into `l`, keeping `x` after every element whose key is
`le`-below (or tied with) `x`'s key would be wrong for stability; `x` is
placed before the first element `y` with `le (key x) (key y)`. -/
def insertByKey (le : κ → κ → Bool) (key : α → κ) (x : α) : List α → List α
  | [] => [x]
  | y :: ys => if le (key x) (key y) then x :: y :: ys else y :: insertByKey le key x ys

/-- Stable sort by key: models Python `sorted(l, key = ...)` where `le`
is the (total) order on key values. -/
def pySorted (le : κ → κ → Bool) (key : α → κ) (l : List α) : List α :=
  l.foldr (insertByKey le key) []

/-! ### Section locator (`utils.py`) -/

/-- `utils.section_start`: first index where the header's space-split
(stripped) words followed by a literal `":"` token occur, subject to the
code's guard `token_ix >= len(tokens) - len(header_tokens)` (which
`continue`s, i.e. requires `token_ix < len(tokens) - len(header_tokens)`
as integers); `-1` if no index qualifies. -/
def section_start (tokens : List String) (header_name : String) : Int :=
  let header_tokens := (pySplitSpace header_name).map pyStrip ++ [":"]
  match (List.range tokens.length).find? (fun (token_ix : Nat) =>
      decide ((token_ix : Int) < (tokens.length : Int) - (header_tokens.length : Int)) &&
      decide ((tokens.drop token_ix).take header_tokens.length = header_tokens)) with
  | some token_ix => (token_ix : Int)
  | none => -1

/-- `utils.isHeaderPrefix`: does the token before a colon look like a
section-header word (no `_ ! , .`, non-numeric, fully uppercase)? -/
def isHeaderPfx (pfx : String) : Bool :=
  if ["_", "!", ",", "."].any (fun syntax_token => containsSub pfx syntax_token) then false
  else if pyIsNumeric pfx || !pyIsUpper pfx then false
  else true

/-- The backtracking `while` loop of `utils.section_end`: decrement
`ending_idx` while `ending_idx >= 1` and the preceding token is
header-like. -/
def backtrack_hdr (tokens : List String) : Nat → Nat
  | 0 => 0
  | e + 1 => if isHeaderPfx (tokens.getD e "") then backtrack_hdr tokens e else e + 1

/-- The scanning loop of `utils.section_end` over
`enumerate(tokens[section_content_start:])`; falls through to
`len(tokens)` when no qualifying colon is found. -/
def section_end_scan (tokens : List String) (section_start_idx scs words : Nat) :
    List (Nat × String) → Nat
  | [] => tokens.length
  | (token_ix, token) :: rest =>
      if token = ":" ∧ isHeaderPfx (tokens.getD (scs + token_ix - 1) "") then
        let ending_idx := backtrack_hdr tokens (token_ix + scs)
        if (ending_idx : Int) - 1 ≠ (section_start_idx : Int) + (words : Int) then ending_idx
        else section_end_scan tokens section_start_idx scs words rest
      else section_end_scan tokens section_start_idx scs words rest

/-- `utils.section_end`: scan past the header and colon for the next
colon preceded by a header-like token, backtrack over the contiguous run
of header-like tokens, and return that boundary (rejecting the boundary
that is exactly one past the header's own word count); `len(tokens)` if
none is found. -/
def section_end (tokens : List String) (section_start_idx : Nat) (header_name : String) : Nat :=
  let header_tokens := (pySplitSpace header_name).map pyStrip ++ [":"]
  let section_content_start := section_start_idx + header_tokens.length
  section_end_scan tokens section_start_idx section_content_start
    (pySplitSpace header_name).length ((tokens.drop section_content_start).enum)

/-- The `for impression_header in ...` loop of
`utils.locate_findings_impression`: first of IMPRESSION, CONCLUSION,
SUMMARY whose start is found, else `-1`. -/
def firstImpressionStart (tokens : List String) : Int :=
  match ["IMPRESSION", "CONCLUSION", "SUMMARY"].find?
      (fun impression_header => section_start tokens impression_header ≠ -1) with
  | some impression_header => section_start tokens impression_header
  | none => -1

/-- `utils.locate_findings_impression`: the (start, end) token ranges of
the FINDINGS and IMPRESSION-like sections, `(-1, -1)` when absent; a
combined "FINDINGS AND IMPRESSION" header makes both ranges coincide.
Note the code computes the IMPRESSION end with header name
`"IMPRESSION"` regardless of which impression-like header matched. -/
def locate_findings_impression (report_text : String) : (Int × Int) × (Int × Int) :=
  let tokens := pySplitSpace report_text
  let findings_and_impression_idx := section_start tokens "FINDINGS AND IMPRESSION"
  if findings_and_impression_idx ≠ -1 then
    let section_end_idx :=
      section_end tokens findings_and_impression_idx.toNat "FINDINGS AND IMPRESSION"
    ((findings_and_impression_idx, (section_end_idx : Int)),
     (findings_and_impression_idx, (section_end_idx : Int)))
  else
    let findings_start_idx := section_start tokens "FINDINGS"
    let impression_start_idx := firstImpressionStart tokens
    let findings_end_idx : Int :=
      if findings_start_idx ≠ -1 then (section_end tokens findings_start_idx.toNat "FINDINGS" : Int)
      else -1
    let impression_end_idx : Int :=
      if impression_start_idx ≠ -1 then
        (section_end tokens impression_start_idx.toNat "IMPRESSION" : Int)
      else -1
    ((findings_start_idx, findings_end_idx), (impression_start_idx, impression_end_idx))

/-! ### Data model -/

/-- Python exceptions raised by the serialization core. -/
inductive PyErr where
  | keyError (key : String)
  | valueError (msg : String)
deriving DecidableEq, Repr

/-- One RadGraph entity record (a value of the `"entities"` mapping). -/
structure Entity where
  label : String
  tokens : String
  relations : List (String × String)
  start_ix : Int
  end_ix : Int
deriving DecidableEq, Repr

/-- The `"entities"` mapping: an insertion-ordered Python dict from
entity id to entity record (keys unique, lookup finds the first match). -/
abbrev EntityMap := List (String × Entity)

/-- Python dict lookup `graph_obj[key]`, raising `KeyError` when absent. -/
def dictGet (graph_obj : EntityMap) (key : String) : Except PyErr Entity :=
  match graph_obj.find? (fun p => decide (p.1 = key)) with
  | some p => .ok p.2
  | none => .error (.keyError key)

/-- Node attributes carried by `build_graph` (`label`, `tokens`). -/
structure NodeAttr where
  label : String
  tokens : String
deriving DecidableEq, Repr

/-- A `networkx.DiGraph` as built by `utils.build_graph`: nodes in
insertion order (entity nodes carry attributes, nodes added by
`add_edge` carry none) and the directed edge list. -/
structure PyGraph where
  nodes : List (String × Option NodeAttr)
  edges : List (String × String)
deriving DecidableEq, Repr

/-- `networkx` `add_edge` endpoint handling: a node is added without
attributes when not already present. -/
def addNodeIfAbsent (nodes : List (String × Option NodeAttr)) (key : String) :
    List (String × Option NodeAttr) :=
  if nodes.any (fun p => decide (p.1 = key)) then nodes else nodes ++ [(key, none)]

/-- `utils.build_graph`: one node per entity id (with `label`/`tokens`
attributes), then one edge per relation; `add_edge` also creates any
missing endpoint node (so a dangling relation target becomes an
attribute-less node). -/
def build_graph (entities : EntityMap) : PyGraph :=
  let entity_nodes := entities.map (fun p => (p.1, some (NodeAttr.mk p.2.label p.2.tokens)))
  let edges := entities.foldr (fun p acc => p.2.relations.map (fun relation => (p.1, relation.2)) ++ acc) []
  let all_nodes := edges.foldl (fun acc e => addNodeIfAbsent (addNodeIfAbsent acc e.1) e.2) entity_nodes
  PyGraph.mk all_nodes edges

/-- Merge step of the union-find computation of weakly-connected
components: all components touching either endpoint of an edge are
fused into one. -/
def mergeOne (a b : String) (components : List (List String)) : List (List String) :=
  (components.filter (fun c => decide (a ∈ c) || decide (b ∈ c))).flatten ::
    components.filter (fun c => !(decide (a ∈ c) || decide (b ∈ c)))

/-- Union-find over the undirected view of the edge list. -/
def mergeComponents : List (String × String) → List (List String) → List (List String)
  | [], components => components
  | (a, b) :: rest, components => mergeComponents rest (mergeOne a b components)

/-- Models `utils.get_subgraphs`, i.e. the semantics of
`networkx.weakly_connected_components` (followed by the node-copying
loop): the partition of the graph's nodes into weak-connectivity
classes, computed by union-find over the undirected edge view starting
from singleton components. -/
def get_subgraphs (G : PyGraph) : List (List String) :=
  mergeComponents G.edges (G.nodes.map (fun p => [p.1]))

/-- A RadGraph JSON object: the raw report `text`, the optional
`"entities"` key, and the remaining `"<...>labeler<...>"`-style keys,
each holding that labeler's `"entities"` mapping. -/
structure RadObj where
  text : String
  entities : Option EntityMap
  labelers : List (String × EntityMap)
deriving DecidableEq, Repr

/-- The access `obj["entities"]`, raising `KeyError` when absent. -/
def getEntities (obj : RadObj) : Except PyErr EntityMap :=
  match obj.entities with
  | some graph_obj => .ok graph_obj
  | none => .error (.keyError "entities")

/-! ### Section classifier (`utils.py`) -/

/-- `utils.categorize_node`: FINDINGS or IMPRESSION for one entity,
raising `ValueError` when both section ranges are absent or when their
starts coincide. -/
def categorize_node (obj : RadObj) (node : String)
    (findings_idx_range impression_idx_range : Int × Int) : Except PyErr String := do
  let graph_obj ← getEntities obj
  let ent ← dictGet graph_obj node
  let start_idx := ent.start_ix
  let end_idx := ent.end_ix
  let (findings_start, findings_end) := findings_idx_range
  let (impression_start, impression_end) := impression_idx_range
  if findings_start = -1 ∧ impression_start = -1 then
    .error (.valueError "At least one of the FINDINGS and IMPRESSION sections must exist")
  else if findings_start = impression_start then
    .error (.valueError "The FINDINGS and IMPRESSION sections should not coincide.")
  else if findings_start = -1 ∧ impression_start ≠ -1 then
    if start_idx ≥ impression_start ∧ end_idx < impression_end then pure "IMPRESSION"
    else pure "FINDINGS"
  else if start_idx ≥ findings_start ∧ end_idx < findings_end then pure "FINDINGS"
  else pure "IMPRESSION"

/-- `utils.categorize_subgraph`: classify every node of a component and
reduce the resulting set of labels (`{FINDINGS}` → FINDINGS,
`{IMPRESSION}` → IMPRESSION, mixed → IMPRESSION as tie-break).  The
Python `set` is modelled as a duplicate-free accumulator list; set
equality with a singleton is "nonempty and all elements equal". -/
def categorize_subgraph (obj : RadObj) (subgraph : List String)
    (findings_idx_range impression_idx_range : Int × Int) : Except PyErr String := do
  let sections ← subgraph.foldlM (fun (acc : List String) node => do
      let s ← categorize_node obj node findings_idx_range impression_idx_range
      pure (if s ∈ acc then acc else acc ++ [s])) []
  if ¬sections.isEmpty ∧ sections.all (fun s => decide (s = "FINDINGS")) then pure "FINDINGS"
  else if ¬sections.isEmpty ∧ sections.all (fun s => decide (s = "IMPRESSION")) then
    pure "IMPRESSION"
  else pure "IMPRESSION"

/-! ### Node serializer (`graph_report.py`) -/

/-- The `relation_precedence` dict of `serialize_node`. -/
def relation_precedence : String → Option Nat
  | "located_at" => some 1
  | "modify" => some 2
  | "suggestive_of" => some 3
  | _ => none

/-- Index of the last occurrence of `relation` in the list (for members;
this is the index a repeated relation ends up with in the
`relation_queue` dict, whose keys are the relation tuples, because later
comprehension entries overwrite earlier ones). -/
def lastIdxOf : List (String × String) → (String × String) → Nat
  | [], _ => 0
  | _ :: rest, relation => if relation ∈ rest then lastIdxOf rest relation + 1 else 0

/-- Python tuple comparison `(a₁, a₂) <= (b₁, b₂)` (lexicographic). -/
def pairKeyLE (a b : Nat × Nat) : Bool :=
  decide (a.1 < b.1) || (decide (a.1 = b.1) && decide (a.2 ≤ b.2))

/-- The sort key `relation_queue[tuple(rel)]` of `serialize_node`:
(precedence of the relation type, index of the relation in the list —
the last index when the same relation tuple occurs more than once). -/
def relationKey (relations : List (String × String)) (relation : String × String) : Nat × Nat :=
  ((relation_precedence relation.1).getD 0, lastIdxOf relations relation)

/-- `sorted(relations, key = lambda rel: relation_queue[tuple(rel)])`. -/
def sorted_relations (relations : List (String × String)) : List (String × String) :=
  pySorted pairKeyLE (relationKey relations) relations

/-- The `relation_queue` dict comprehension raises `KeyError` on the
first relation type outside the precedence dict. -/
def checkPrecedences : List (String × String) → Except PyErr (List Nat)
  | [] => .ok []
  | relation :: rest =>
      match relation_precedence relation.1 with
      | some p => do
          let ps ← checkPrecedences rest
          pure (p :: ps)
      | none => .error (PyErr.keyError relation.1)

/-- Python `set(rel[0] for rel in relations) == {t}`: nonempty and every
relation type equal to `t`. -/
def typesEq (relations : List (String × String)) (t : String) : Bool :=
  !relations.isEmpty && relations.all (fun relation => decide (relation.1 = t))

/-- `utils.get_suffix`: presence suffix chosen by the entity label. -/
def get_suffix (node_label : String) (stem : String) : String :=
  if containsSub node_label "DP" then stem ++ "present"
  else if containsSub node_label "U" then stem ++ "uncertain"
  else if containsSub node_label "DA" then stem ++ "absent"
  else ""

/-- The modify-only loop of `serialize_node`: each target's tokens plus
a space, concatenated in sorted order. -/
def renderTargets (graph_obj : EntityMap) : List (String × String) → Except PyErr String
  | [] => .ok ""
  | relation :: rest => do
      let target ← dictGet graph_obj relation.2
      let s ← renderTargets graph_obj rest
      pure (target.tokens ++ " " ++ s)

/-- The located_at-only loop of `serialize_node`: `<type> <target tokens> `
per relation, concatenated in sorted order. -/
def renderRelTargets (graph_obj : EntityMap) : List (String × String) → Except PyErr String
  | [] => .ok ""
  | relation :: rest => do
      let target ← dictGet graph_obj relation.2
      let s ← renderRelTargets graph_obj rest
      pure (relation.1 ++ " " ++ target.tokens ++ " " ++ s)

/-- The general-case loop of `serialize_node` over
`enumerate(sorted_relations)`: each relation renders
`<source> <target> ` (for modify) or `<source> <type> <target> `
followed by `", "`, except that the last relation is followed by `" "`. -/
def renderGeneral (graph_obj : EntityMap) (source_tokens : String) :
    List (String × String) → Except PyErr String
  | [] => .ok ""
  | [relation] => do
      let target ← dictGet graph_obj relation.2
      if relation.1 = "modify" then
        pure (source_tokens ++ " " ++ target.tokens ++ " " ++ " ")
      else
        pure (source_tokens ++ " " ++ relation.1 ++ " " ++ target.tokens ++ " " ++ " ")
  | relation :: next :: rest => do
      let target ← dictGet graph_obj relation.2
      let s ← renderGeneral graph_obj source_tokens (next :: rest)
      if relation.1 = "modify" then
        pure (source_tokens ++ " " ++ target.tokens ++ " " ++ ", " ++ s)
      else
        pure (source_tokens ++ " " ++ relation.1 ++ " " ++ target.tokens ++ " " ++ ", " ++ s)

/-- `graph_report.serialize_node`. -/
def serialize_node (graph_obj : EntityMap) (source_node : String) (stem : String) :
    Except PyErr String := do
  let ent ← dictGet graph_obj source_node
  let source_tokens := ent.tokens
  let relations := ent.relations
  let label := ent.label
  let _ ← checkPrecedences relations
  let sorted := sorted_relations relations
  let node_serialization ←
    if relations.length = 0 then
      pure (source_tokens ++ " ")
    else if typesEq relations "modify" ∧ relations.length > 1 then do
      let s ← renderTargets graph_obj sorted
      pure (s ++ source_tokens ++ " ")
    else if typesEq relations "located_at" ∧ relations.length > 1 then
      if containsSub label "DP" then do
        let s ← renderRelTargets graph_obj sorted
        pure (source_tokens ++ " " ++ s)
      else pure (source_tokens ++ " ")
    else
      renderGeneral graph_obj source_tokens sorted
  pure (node_serialization ++ get_suffix label stem)

/-! ### Subgraph serializer (`graph_report.py`) -/

/-- `G.nodes[node]["label"] / ["tokens"]`: `KeyError` when the node is
absent or (an `add_edge`-created node) has no attributes. -/
def nodeAttrOf (G : PyGraph) (node : String) : Except PyErr NodeAttr :=
  match G.nodes.find? (fun p => decide (p.1 = node)) with
  | some (_, some attr) => .ok attr
  | some (_, none) => .error (.keyError "label")
  | none => .error (.keyError node)

/-- The node loop of `serialize_subgraph`, carrying the accumulated
output string and the `previous_node_modified` flag. -/
def serializeSubgraphGo (G : PyGraph) : List String → String → Bool → Except PyErr String
  | [], out, _ => .ok out
  | node :: rest, out, previous_node_modified => do
      let attr ← nodeAttrOf G node
      if containsSub attr.label "DA" ∧ previous_node_modified = false then
        serializeSubgraphGo G rest ("no " ++ out ++ attr.tokens ++ " ") true
      else if containsSub attr.label "U" ∧ previous_node_modified = false then
        serializeSubgraphGo G rest ("maybe " ++ out ++ attr.tokens ++ " ") true
      else
        serializeSubgraphGo G rest (out ++ attr.tokens ++ " ") previous_node_modified

/-- `decide`-valued `Int` order for `pySorted`. -/
def intLE (a b : Int) : Bool := decide (a ≤ b)

/-- `graph_report.serialize_subgraph`: nodes sorted by `int(x)`, tokens
concatenated with trailing spaces, with at most one `"no "`/`"maybe "`
prefix prepended to the whole accumulated string. -/
def serialize_subgraph (subgraph : List String) (G : PyGraph) : Except PyErr String :=
  serializeSubgraphGo G (pySorted intLE pyIntOf subgraph) "" false

/-! ### Report assembly -/

/-- The `report_dict` accumulator of both report serializers. -/
structure Buckets where
  report : String
  findings : String
  impression : String
  findings_and_impression : String
deriving DecidableEq, Repr

/-- `report_dict[section] += s`. -/
def addSection (b : Buckets) (sec : String) (s : String) : Buckets :=
  if sec = "FINDINGS" then { b with findings := b.findings ++ s }
  else if sec = "IMPRESSION" then { b with impression := b.impression ++ s }
  else if sec = "FINDINGS AND IMPRESSION" then
    { b with findings_and_impression := b.findings_and_impression ++ s }
  else b

/-- The shared assembly policy of both report serializers. -/
def assemble (b : Buckets) (separate_findings_impression : Bool) : String :=
  if separate_findings_impression = false then b.report
  else if b.findings_and_impression ≠ "" then
    "FINDINGS AND IMPRESSION \n" ++ b.findings_and_impression
  else if b.findings ≠ "" ∧ b.impression = "" then "FINDINGS \n" ++ b.findings
  else if b.findings = "" ∧ b.impression ≠ "" then "IMPRESSION \n" ++ b.impression
  else "FINDINGS \n" ++ b.findings ++ "\n" ++ "IMPRESSION \n" ++ b.impression

/-- `graph_report.serialize_graph_by_subgraphs`. -/
def serialize_graph_by_subgraphs (obj : RadObj) (separate_findings_impression : Bool) :
    Except PyErr String := do
  let graph_obj ← getEntities obj
  let G := build_graph graph_obj
  let ((findings_start_idx, findings_end_idx), (impression_start_idx, impression_end_idx)) :=
    locate_findings_impression obj.text
  let subgraphs := get_subgraphs G
  let report_dict ← subgraphs.foldlM (fun (b : Buckets) subgraph => do
      let serialized ← serialize_subgraph subgraph G
      let b := { b with report := b.report ++ pyStrip serialized ++ "\n" }
      let subgraph_section ←
        if findings_start_idx = impression_start_idx ∨
            (findings_start_idx = -1 ∧ impression_start_idx = -1) then
          pure "FINDINGS AND IMPRESSION"
        else
          categorize_subgraph obj subgraph (findings_start_idx, findings_end_idx)
            (impression_start_idx, impression_end_idx)
      pure (addSection b subgraph_section (serialized ++ "\n"))) (Buckets.mk "" "" "" "")
  pure (assemble report_dict separate_findings_impression)

/-! ### Entity-level serializer (`graph_report.py`) -/

/-- The `anat_structures` comma-joined token list: tokens of every
entity labelled exactly `ANAT-DP`, joined by `","`. -/
def anat_structures_str (graph_obj : EntityMap) : String :=
  pyJoinSep "," ((graph_obj.filter (fun p => decide (p.2.label = "ANAT-DP"))).map
    (fun p => p.2.tokens))

/-- The per-node loop of `serialize_graph_by_entities`, building the
four `report_dict` buckets. -/
def entityBuckets (obj : RadObj) (graph_obj : EntityMap) (method_name : String) :
    Except PyErr Buckets :=
  let ((findings_start_idx, findings_end_idx), (impression_start_idx, impression_end_idx)) :=
    locate_findings_impression obj.text
  let nodes := graph_obj.map Prod.fst
  nodes.foldlM (fun (b : Buckets) node => do
      let ent ← dictGet graph_obj node
      let label := ent.label
      let node_serialization ←
        if method_name = "with_@_anat" ∧ label ≠ "ANAT-DP" then do
          let s ← serialize_node graph_obj node "@ "
          pure (s ++ "\n")
        else if method_name = "with_anat" ∧ label ≠ "ANAT-DP" then do
          let stem := if ent.relations.length > 0 then "is " else ""
          let s ← serialize_node graph_obj node stem
          pure (s ++ "\n")
        else if method_name = "no_sep" then do
          let s ← serialize_node graph_obj node "@ "
          pure (s ++ "\n")
        else pure ""
      let b := { b with report := b.report ++ node_serialization }
      let node_section ←
        if findings_start_idx = impression_start_idx ∨
            (findings_start_idx = -1 ∧ impression_start_idx = -1) then
          pure "FINDINGS AND IMPRESSION"
        else
          categorize_node obj node (findings_start_idx, findings_end_idx)
            (impression_start_idx, impression_end_idx)
      pure (addSection b node_section node_serialization)) (Buckets.mk "" "" "" "")

/-- `graph_report.serialize_graph_by_entities`. -/
def serialize_graph_by_entities (obj : RadObj) (method_name : String)
    (separate_findings_impression : Bool) : Except PyErr String := do
  let graph_obj ← getEntities obj
  let report_dict ← entityBuckets obj graph_obj method_name
  let report := assemble report_dict separate_findings_impression
  if method_name = "with_@_anat" ∨ method_name = "with_anat" then
    pure (report ++ "Anatomical structures present: " ++ anat_structures_str graph_obj ++ "\n")
  else
    pure report

/-! ### Dispatcher (`graph_report.py`) -/

/-- A Python value that is either a string or an int (the dispatcher
returns the serialized string on success and a negative int on error). -/
inductive PyVal where
  | pyStr (s : String)
  | pyInt (n : Int)
deriving DecidableEq, Repr

/-- `ERROR_LABELS` constant of `graph_report.py`. -/
def ERROR_LABELS : Int := -1

/-- `ERROR_METHOD` constant of `graph_report.py`. -/
def ERROR_METHOD : Int := -2

/-- The method dispatch of `serialize_graph_report` (the part reached
once `"entities"` is present). -/
def dispatchByMethod (obj : RadObj) (method : String) (separate_findings : Bool) :
    Except PyErr PyVal :=
  if method = "subgraphs" then
    (serialize_graph_by_subgraphs obj separate_findings).map PyVal.pyStr
  else if method = "no_sep" ∨ method = "with_anat" ∨ method = "with_@_anat" then
    (serialize_graph_by_entities obj method separate_findings).map PyVal.pyStr
  else .ok (.pyInt ERROR_METHOD)

/-- `sorted([key for key in obj.keys() if "labeler" in key])`.  Only the
non-`entities`, non-`text` keys (the labeler side keys) can contain the
substring `"labeler"`. -/
def labelerKeys (obj : RadObj) : List String :=
  pySorted pyStrLE id ((obj.labelers.map Prod.fst).filter (fun key => containsSub key "labeler"))

/-- `graph_report.serialize_graph_report`.  The Python function recurses
once after copying the first labeler's entities into the object; the
recursive call then has `"entities"` present and performs the method
dispatch, which is inlined here. -/
def serialize_graph_report (obj : RadObj) (method : String) (separate_findings : Bool) :
    Except PyErr PyVal :=
  match obj.entities with
  | some _ => dispatchByMethod obj method separate_findings
  | none =>
      match labelerKeys obj with
      | [] => .ok (.pyInt ERROR_LABELS)
      | k0 :: _ =>
          let ents := ((obj.labelers.find? (fun p => decide (p.1 = k0))).map Prod.snd).getD []
          dispatchByMethod (RadObj.mk obj.text (some ents) obj.labelers) method separate_findings

/-! ### Derived observations used in the claim statements -/

/-- The node's label attribute, with a default for absent nodes (used
only under hypotheses that make every lookup succeed). -/
def nodeLabelD (G : PyGraph) (node : String) : String :=
  match nodeAttrOf G node with
  | .ok attr => attr.label
  | .error _ => ""

/-- The node's tokens attribute, with a default for absent nodes. -/
def nodeTokensD (G : PyGraph) (node : String) : String :=
  match nodeAttrOf G node with
  | .ok attr => attr.tokens
  | .error _ => ""

/-- The tokens of a node list in order, each followed by one space. -/
def subgraphTokens (G : PyGraph) : List String → String
  | [] => ""
  | node :: rest => nodeTokensD G node ++ " " ++ subgraphTokens G rest

/-- The modifier a component's serialization starts with: `"no "` when
the first node whose label contains `"DA"` or `"U"` contains `"DA"`,
`"maybe "` when it contains `"U"` but not `"DA"`, nothing otherwise. -/
def componentModifier (G : PyGraph) (nodes : List String) : String :=
  match nodes.find? (fun node =>
      containsSub (nodeLabelD G node) "DA" || containsSub (nodeLabelD G node) "U") with
  | none => ""
  | some node => if containsSub (nodeLabelD G node) "DA" then "no " else "maybe "

/-! ### Concrete inputs used by the claims -/

/-- The entity map of the round-trip scenario of C1. -/
def c1map : EntityMap :=
  [("1", Entity.mk "OBS-DP" "opacity" [("located_at", "2")] 0 1),
   ("2", Entity.mk "ANAT-DP" "lung" [] 2 3)]

/-- The C1 RadGraph object: the C1 entities over a report text with no
section headers. -/
def c1obj : RadObj := RadObj.mk "" (some c1map) []

/-- C2 counterexample input: an absent (`DA`) entity whose relations are
all `located_at`, more than one, and all dangling. -/
def c2map : EntityMap :=
  [("1", Entity.mk "OBS-DA" "edema" [("located_at", "9"), ("located_at", "8")] 0 1)]

/-- C2 witness input: a present entity with a single dangling relation. -/
def c2map2 : EntityMap :=
  [("1", Entity.mk "OBS-DP" "edema" [("located_at", "9")] 0 1)]

/-- C4 counterexample input: a single entity with a dangling relation
target `"2"`. -/
def c4map : EntityMap := [("1", Entity.mk "OBS-DP" "opacity" [("located_at", "2")] 0 1)]

/-- C6 rendering example: the claim's three relations on a source node. -/
def c6map : EntityMap :=
  [("0", Entity.mk "OBS-DP" "opacity"
      [("suggestive_of", "X"), ("located_at", "Y"), ("modify", "Z")] 0 1),
   ("X", Entity.mk "OBS-DP" "pneumonia" [] 0 1),
   ("Y", Entity.mk "ANAT-DP" "lung" [] 0 1),
   ("Z", Entity.mk "OBS-DP" "right" [] 0 1)]

/-- A one-entity labeler map whose serialization is distinguishable. -/
def c9ents1 : EntityMap := [("1", Entity.mk "OBS-DP" "cardiomegaly" [] 0 1)]

/-- A second labeler map with different tokens. -/
def c9ents2 : EntityMap := [("1", Entity.mk "OBS-DP" "effusion" [] 0 1)]

/-- C9 multi-labeler object: no `"entities"` key, labeler keys given in
reverse lexicographic order so that the sort is observable. -/
def c9obj : RadObj := RadObj.mk "" none [("labeler_2", c9ents2), ("labeler_1", c9ents1)]

/-- C10 witness object: one observation entity and no `ANAT-DP` entity. -/
def c10obj : RadObj := RadObj.mk "" (some [("1", Entity.mk "OBS-DP" "edema" [] 0 1)]) []

/-- C7 witness graph: two connected entities and one isolated entity. -/
def c7graph : PyGraph := build_graph
  [("1", Entity.mk "OBS-DA" "opacity" [("located_at", "2")] 0 1),
   ("2", Entity.mk "ANAT-DP" "lung" [] 2 3),
   ("10", Entity.mk "OBS-U" "effusion" [] 4 5)]

/-! ### Reduction lemmas for the `Except` monad -/

theorem except_bind_ok {ε α β : Type} (a : α) (f : α → Except ε β) :
    ((Except.ok a : Except ε α) >>= f) = f a := rfl

theorem except_bind_error {ε α β : Type} (e : ε) (f : α → Except ε β) :
    ((Except.error e : Except ε α) >>= f) = Except.error e := rfl

theorem except_pure {ε α : Type} (a : α) : (pure a : Except ε α) = Except.ok a := rfl

/-! ### Stable sort lemmas -/

theorem mem_insertByKey {le : κ → κ → Bool} {key : α → κ} {x y : α} {l : List α} :
    x ∈ insertByKey le key y l ↔ x = y ∨ x ∈ l := by
  induction l with
  | nil => simp [insertByKey]
  | cons z zs ih =>
      simp only [insertByKey]
      split
      · simp [List.mem_cons]
      · simp only [List.mem_cons, ih]
        tauto

theorem mem_pySorted {le : κ → κ → Bool} {key : α → κ} {x : α} {l : List α} :
    x ∈ pySorted le key l ↔ x ∈ l := by
  induction l with
  | nil => simp [pySorted]
  | cons z zs ih =>
      show x ∈ insertByKey le key z (pySorted le key zs) ↔ _
      rw [mem_insertByKey, ih, List.mem_cons]

theorem sublist_insertByKey (le : κ → κ → Bool) (key : α → κ) (x : α) (l : List α) :
    List.Sublist l (insertByKey le key x l) := by
  induction l with
  | nil => simp [insertByKey]
  | cons y ys ih =>
      simp only [insertByKey]
      split
      · exact List.sublist_cons_self x (y :: ys)
      · exact List.Sublist.cons₂ y ih

theorem pair_sublist_insertByKey {le : κ → κ → Bool} {key : α → κ} {a b : α} {l : List α}
    (hb : b ∈ l) (hab : le (key a) (key b) = true) :
    List.Sublist [a, b] (insertByKey le key a l) := by
  induction l with
  | nil => cases hb
  | cons y ys ih =>
      by_cases h : le (key a) (key y) = true
      · simp only [insertByKey, if_pos h]
        exact List.Sublist.cons₂ a (List.singleton_sublist.mpr hb)
      · simp only [insertByKey, if_neg h]
        rcases List.mem_cons.mp hb with rfl | hb'
        · exact absurd hab h
        · exact List.Sublist.cons y (ih hb')

/-- Stability of the insertion sort modelling Python `sorted`: two
elements in key order keep their relative order. -/
theorem pySorted_stable {le : κ → κ → Bool} {key : α → κ} {a b : α} {l : List α}
    (hab : le (key a) (key b) = true) (hsub : List.Sublist [a, b] l) :
    List.Sublist [a, b] (pySorted le key l) := by
  induction l with
  | nil => cases hsub
  | cons x t ih =>
      show List.Sublist [a, b] (insertByKey le key x (pySorted le key t))
      cases hsub with
      | cons _ h' => exact (ih h').trans (sublist_insertByKey le key x (pySorted le key t))
      | cons₂ _ h' =>
          exact pair_sublist_insertByKey (mem_pySorted.mpr (List.singleton_sublist.mp h')) hab

theorem pairwise_insertByKey {le : κ → κ → Bool} {key : α → κ}
    (htot : ∀ p q : κ, le p q = true ∨ le q p = true)
    (htrans : ∀ p q r : κ, le p q = true → le q r = true → le p r = true)
    {x : α} {l : List α}
    (h : l.Pairwise (fun u v => le (key u) (key v) = true)) :
    (insertByKey le key x l).Pairwise (fun u v => le (key u) (key v) = true) := by
  induction l with
  | nil => simp [insertByKey]
  | cons y ys ih =>
      rcases List.pairwise_cons.mp h with ⟨hy, hys⟩
      by_cases hc : le (key x) (key y) = true
      · simp only [insertByKey, if_pos hc]
        refine List.pairwise_cons.mpr ⟨?_, h⟩
        intro z hz
        rcases List.mem_cons.mp hz with rfl | hz'
        · exact hc
        · exact htrans _ _ _ hc (hy z hz')
      · simp only [insertByKey, if_neg hc]
        refine List.pairwise_cons.mpr ⟨?_, ih hys⟩
        intro z hz
        rcases mem_insertByKey.mp hz with rfl | hz'
        · rcases htot (key z) (key y) with h1 | h1
          · exact absurd h1 hc
          · exact h1
        · exact hy z hz'

theorem pySorted_pairwise {le : κ → κ → Bool} {key : α → κ}
    (htot : ∀ p q : κ, le p q = true ∨ le q p = true)
    (htrans : ∀ p q r : κ, le p q = true → le q r = true → le p r = true)
    (l : List α) :
    (pySorted le key l).Pairwise (fun u v => le (key u) (key v) = true) := by
  induction l with
  | nil => simp [pySorted]
  | cons x t ih => exact pairwise_insertByKey htot htrans ih

/-- In a duplicate-free list, last-occurrence indices respect order. -/
theorem lastIdxOf_lt {l : List (String × String)} {a b : String × String}
    (hnd : l.Nodup) (hsub : List.Sublist [a, b] l) :
    lastIdxOf l a < lastIdxOf l b := by
  induction l with
  | nil => cases hsub
  | cons x t ih =>
      rcases List.nodup_cons.mp hnd with ⟨hx, hnd'⟩
      cases hsub with
      | cons _ h' =>
          have ha : a ∈ t := List.Sublist.mem (by simp) h'
          have hb : b ∈ t := List.Sublist.mem (by simp) h'
          simp only [lastIdxOf, if_pos ha, if_pos hb]
          exact Nat.succ_lt_succ (ih hnd' h')
      | cons₂ _ h' =>
          have hb : b ∈ t := List.singleton_sublist.mp h'
          simp only [lastIdxOf, if_neg hx, if_pos hb]
          exact Nat.succ_pos _

/-! ### Partition lemmas for the component decomposition -/

theorem countP_and_split (p q : α → Bool) (l : List α) :
    l.countP (fun c => q c && p c) + l.countP (fun c => q c && !p c) = l.countP q := by
  induction l with
  | nil => simp
  | cons x t ih =>
      simp only [List.countP_cons]
      cases hq : q x <;> cases hp : p x <;> simp [hq, hp] <;> omega

/-- One union-find merge step keeps the number of components containing
any fixed element, provided that number is at most one. -/
theorem mergeOne_invariant (a b x : String) (components : List (List String))
    (h : components.countP (fun c => decide (x ∈ c)) ≤ 1) :
    (mergeOne a b components).countP (fun c => decide (x ∈ c)) =
      components.countP (fun c => decide (x ∈ c)) := by
  have hsplit := countP_and_split (fun c => decide (a ∈ c) || decide (b ∈ c))
      (fun c => decide (x ∈ c)) components
  have hmem : decide (x ∈ (components.filter (fun c => decide (a ∈ c) || decide (b ∈ c))).flatten)
      = true ↔
      0 < components.countP (fun c => decide (x ∈ c) && (decide (a ∈ c) || decide (b ∈ c))) := by
    rw [decide_eq_true_iff, List.mem_flatten, List.countP_pos_iff]
    constructor
    · rintro ⟨c, hc, hxc⟩
      rcases List.mem_filter.mp hc with ⟨hcm, hcp⟩
      exact ⟨c, hcm, by simp [hxc, hcp]⟩
    · rintro ⟨c, hcm, hc⟩
      rcases Bool.and_eq_true_iff.mp hc with ⟨h1, h2⟩
      exact ⟨c, List.mem_filter.mpr ⟨hcm, h2⟩, decide_eq_true_iff.mp h1⟩
  simp only [mergeOne, List.countP_cons, List.countP_filter]
  by_cases hx : decide
      (x ∈ (components.filter (fun c => decide (a ∈ c) || decide (b ∈ c))).flatten) = true
  · have hA := hmem.mp hx
    simp only [hx, if_true]
    omega
  · have hA : ¬ 0 < components.countP
        (fun c => decide (x ∈ c) && (decide (a ∈ c) || decide (b ∈ c))) :=
      fun hh => hx (hmem.mpr hh)
    have hA0 : components.countP
        (fun c => decide (x ∈ c) && (decide (a ∈ c) || decide (b ∈ c))) = 0 := by omega
    rw [if_neg hx]
    omega

theorem mergeComponents_invariant (edges : List (String × String)) :
    ∀ (components : List (List String)) (x : String),
      components.countP (fun c => decide (x ∈ c)) ≤ 1 →
      (mergeComponents edges components).countP (fun c => decide (x ∈ c)) =
        components.countP (fun c => decide (x ∈ c)) := by
  induction edges with
  | nil => intro comps x h; rfl
  | cons e rest ih =>
      intro comps x h
      obtain ⟨a, b⟩ := e
      have h1 := mergeOne_invariant a b x comps h
      have h2 := ih (mergeOne a b comps) x (by rw [h1]; exact h)
      show (mergeComponents rest (mergeOne a b comps)).countP _ = _
      rw [h2, h1]

theorem countP_singletons (S : List String) (x : String) (h : S.Nodup) :
    (S.map (fun n => [n])).countP (fun c => decide (x ∈ c)) = if x ∈ S then 1 else 0 := by
  induction S with
  | nil => simp
  | cons s t ih =>
      rcases List.nodup_cons.mp h with ⟨hs, ht⟩
      simp only [List.map_cons, List.countP_cons, ih ht]
      by_cases hx : x = s
      · subst hx; simp [hs]
      · simp [hx, List.mem_cons]

theorem addNodeIfAbsent_nodup {nodes : List (String × Option NodeAttr)} {k : String}
    (h : (nodes.map Prod.fst).Nodup) : ((addNodeIfAbsent nodes k).map Prod.fst).Nodup := by
  by_cases hc : nodes.any (fun p => decide (p.1 = k)) = true
  · simpa [addNodeIfAbsent, hc] using h
  · have hk : k ∉ nodes.map Prod.fst := by
      simp only [List.any_eq_true, decide_eq_true_iff] at hc
      intro hmem
      rcases List.mem_map.mp hmem with ⟨p, hp, hpk⟩
      exact hc ⟨p, hp, hpk⟩
    simp only [addNodeIfAbsent]
    rw [if_neg hc]
    simp only [List.map_append]
    rw [List.nodup_append]
    exact ⟨h, List.nodup_singleton k, by simpa using fun hh => hk hh⟩

theorem mem_addNodeIfAbsent {nodes : List (String × Option NodeAttr)} {k x : String}
    (h : x ∈ nodes.map Prod.fst) : x ∈ (addNodeIfAbsent nodes k).map Prod.fst := by
  by_cases hc : nodes.any (fun p => decide (p.1 = k)) = true
  · simpa [addNodeIfAbsent, hc] using h
  · simp [addNodeIfAbsent, hc, h]

theorem foldl_addNodes_nodup (edges : List (String × String)) :
    ∀ acc : List (String × Option NodeAttr), (acc.map Prod.fst).Nodup →
      ((edges.foldl (fun acc e => addNodeIfAbsent (addNodeIfAbsent acc e.1) e.2) acc).map
          Prod.fst).Nodup := by
  induction edges with
  | nil => intro acc h; exact h
  | cons e rest ih =>
      intro acc h
      exact ih _ (addNodeIfAbsent_nodup (addNodeIfAbsent_nodup h))

theorem foldl_addNodes_mem (edges : List (String × String)) :
    ∀ (acc : List (String × Option NodeAttr)) (x : String), x ∈ acc.map Prod.fst →
      x ∈ (edges.foldl (fun acc e => addNodeIfAbsent (addNodeIfAbsent acc e.1) e.2) acc).map
          Prod.fst := by
  induction edges with
  | nil => intro acc x h; exact h
  | cons e rest ih =>
      intro acc x h
      exact ih _ x (mem_addNodeIfAbsent (mem_addNodeIfAbsent h))

theorem build_graph_nodes_nodup (entities : EntityMap) (h : (entities.map Prod.fst).Nodup) :
    ((build_graph entities).nodes.map Prod.fst).Nodup := by
  apply foldl_addNodes_nodup
  simpa [List.map_map, Function.comp] using h

theorem build_graph_mem_nodes (entities : EntityMap) (id : String)
    (h : id ∈ entities.map Prod.fst) : id ∈ (build_graph entities).nodes.map Prod.fst := by
  apply foldl_addNodes_mem
  simpa [List.map_map, Function.comp] using h

/-! ### Error propagation through `serialize_node` -/

theorem dictGet_error_eq {graph_obj : EntityMap} {k : String} {e : PyErr}
    (h : dictGet graph_obj k = .error e) : e = PyErr.keyError k := by
  unfold dictGet at h
  cases hf : graph_obj.find? (fun p => decide (p.1 = k)) with
  | none => rw [hf] at h; exact (Except.error.injEq _ _).mp h.symm ▸ rfl
  | some p => rw [hf] at h; cases h

theorem checkPrecedences_ok {relations : List (String × String)}
    (h : ∀ r ∈ relations, (relation_precedence r.1).isSome = true) :
    ∃ ps, checkPrecedences relations = .ok ps := by
  induction relations with
  | nil => exact ⟨[], rfl⟩
  | cons r rest ih =>
      have hr := h r (by simp)
      cases hp : relation_precedence r.1 with
      | none => rw [hp] at hr; cases hr
      | some p =>
          rcases ih (fun r' hr' => h r' (by simp [hr'])) with ⟨ps, hps⟩
          exact ⟨p :: ps, by simp only [checkPrecedences, hp, hps]; rfl⟩

theorem renderTargets_error {graph_obj : EntityMap} :
    ∀ {rels : List (String × String)},
      (∃ r ∈ rels, dictGet graph_obj r.2 = .error (.keyError r.2)) →
      ∃ k, renderTargets graph_obj rels = .error (.keyError k) := by
  intro rels h
  induction rels with
  | nil => simp at h
  | cons r rest ih =>
      rcases h with ⟨r', hr', hd⟩
      rcases List.mem_cons.mp hr' with rfl | hmem
      · exact ⟨r'.2, by simp only [renderTargets, hd]; rfl⟩
      · cases hdg : dictGet graph_obj r.2 with
        | error e =>
            exact ⟨r.2, by rw [dictGet_error_eq hdg] at hdg; simp only [renderTargets, hdg]; rfl⟩
        | ok t =>
            rcases ih ⟨r', hmem, hd⟩ with ⟨k, hk⟩
            exact ⟨k, by simp only [renderTargets, hdg, hk]; rfl⟩

theorem renderRelTargets_error {graph_obj : EntityMap} :
    ∀ {rels : List (String × String)},
      (∃ r ∈ rels, dictGet graph_obj r.2 = .error (.keyError r.2)) →
      ∃ k, renderRelTargets graph_obj rels = .error (.keyError k) := by
  intro rels h
  induction rels with
  | nil => simp at h
  | cons r rest ih =>
      rcases h with ⟨r', hr', hd⟩
      rcases List.mem_cons.mp hr' with rfl | hmem
      · exact ⟨r'.2, by simp only [renderRelTargets, hd]; rfl⟩
      · cases hdg : dictGet graph_obj r.2 with
        | error e =>
            exact ⟨r.2, by
              rw [dictGet_error_eq hdg] at hdg
              simp only [renderRelTargets, hdg]
              rfl⟩
        | ok t =>
            rcases ih ⟨r', hmem, hd⟩ with ⟨k, hk⟩
            exact ⟨k, by simp only [renderRelTargets, hdg, hk]; rfl⟩

theorem renderGeneral_error {graph_obj : EntityMap} {source_tokens : String} :
    ∀ {rels : List (String × String)},
      (∃ r ∈ rels, dictGet graph_obj r.2 = .error (.keyError r.2)) →
      ∃ k, renderGeneral graph_obj source_tokens rels = .error (.keyError k) := by
  intro rels h
  induction rels with
  | nil => simp at h
  | cons r rest ih =>
      cases rest with
      | nil =>
          rcases h with ⟨r', hr', hd⟩
          rcases List.mem_cons.mp hr' with rfl | hmem
          · exact ⟨r'.2, by simp only [renderGeneral, hd]; rfl⟩
          · simp at hmem
      | cons next rest' =>
          rcases h with ⟨r', hr', hd⟩
          rcases List.mem_cons.mp hr' with rfl | hmem
          · exact ⟨r'.2, by simp only [renderGeneral, hd]; rfl⟩
          · cases hdg : dictGet graph_obj r.2 with
            | error e =>
                exact ⟨r.2, by
                  rw [dictGet_error_eq hdg] at hdg
                  simp only [renderGeneral, hdg]
                  rfl⟩
            | ok t =>
                rcases ih ⟨r', hmem, hd⟩ with ⟨k, hk⟩
                exact ⟨k, by simp only [renderGeneral, hdg, hk]; rfl⟩

/-! ### The loop invariants of `serialize_subgraph` -/

theorem serializeSubgraphGo_modified (G : PyGraph) :
    ∀ (ns : List String) (out : String),
      (∀ n ∈ ns, (nodeAttrOf G n).isOk = true) →
      serializeSubgraphGo G ns out true = .ok (out ++ subgraphTokens G ns) := by
  intro ns
  induction ns with
  | nil =>
      intro out h
      simp [serializeSubgraphGo, subgraphTokens, String.append_empty]
  | cons n rest ih =>
      intro out h
      have hn := h n (by simp)
      cases ha : nodeAttrOf G n with
      | error e => rw [ha] at hn; simp [Except.isOk, Except.toBool] at hn
      | ok attr =>
          have hrest : ∀ m ∈ rest, (nodeAttrOf G m).isOk = true := fun m hm => h m (by simp [hm])
          have htok : nodeTokensD G n = attr.tokens := by simp [nodeTokensD, ha]
          simp only [serializeSubgraphGo, ha, except_bind_ok]
          rw [if_neg (by simp), if_neg (by simp)]
          rw [ih _ hrest]
          simp [subgraphTokens, htok, String.append_assoc]

theorem serializeSubgraphGo_unmodified (G : PyGraph) :
    ∀ (ns : List String) (out : String),
      (∀ n ∈ ns, (nodeAttrOf G n).isOk = true) →
      serializeSubgraphGo G ns out false =
        .ok (componentModifier G ns ++ (out ++ subgraphTokens G ns)) := by
  intro ns
  induction ns with
  | nil =>
      intro out h
      simp [serializeSubgraphGo, subgraphTokens, componentModifier, String.append_empty,
        String.empty_append]
  | cons n rest ih =>
      intro out h
      have hn := h n (by simp)
      cases ha : nodeAttrOf G n with
      | error e => rw [ha] at hn; simp [Except.isOk, Except.toBool] at hn
      | ok attr =>
          have hrest : ∀ m ∈ rest, (nodeAttrOf G m).isOk = true := fun m hm => h m (by simp [hm])
          have htok : nodeTokensD G n = attr.tokens := by simp [nodeTokensD, ha]
          have hlab : nodeLabelD G n = attr.label := by simp [nodeLabelD, ha]
          by_cases hda : containsSub attr.label "DA" = true
          · have hmod : componentModifier G (n :: rest) = "no " := by
              simp [componentModifier, List.find?_cons, hlab, hda]
            simp only [serializeSubgraphGo, ha, except_bind_ok]
            rw [if_pos (by simp [hda]), serializeSubgraphGo_modified G rest _ hrest, hmod]
            simp [subgraphTokens, htok, String.append_assoc]
          · by_cases hu : containsSub attr.label "U" = true
            · have hmod : componentModifier G (n :: rest) = "maybe " := by
                simp [componentModifier, List.find?_cons, hlab, hda, hu]
              simp only [serializeSubgraphGo, ha, except_bind_ok]
              rw [if_neg (by simp [hda]), if_pos (by simp [hu]),
                serializeSubgraphGo_modified G rest _ hrest, hmod]
              simp [subgraphTokens, htok, String.append_assoc]
            · have hmod : componentModifier G (n :: rest) = componentModifier G rest := by
                simp [componentModifier, List.find?_cons, hlab, hda, hu]
              simp only [serializeSubgraphGo, ha, except_bind_ok]
              rw [if_neg (by simp [hda]), if_neg (by simp [hu]), ih _ hrest, hmod]
              simp [subgraphTokens, htok, String.append_assoc]

/-! ### Claim theorems -/

/-- Claim C1 (counterexample): in the round-trip scenario (entity map of
two entities, method `no_sep`, headerless report text) the output line
for entity `"1"` is NOT `"opacity located_at lung @ present"`: the
claimed line occurs neither as a line nor as a substring of the output,
because the general-case renderer emits a trailing space after the
target tokens and then another space terminator, producing a double
space before `"@"`. -/
theorem C1_no_sep_roundtrip_counterexample :
    serialize_graph_by_entities c1obj "no_sep" false =
      .ok "opacity located_at lung  @ present\nlung @ present\n"
    ∧ containsSub "opacity located_at lung  @ present\nlung @ present\n"
        "opacity located_at lung @ present" = false
    ∧ ¬ "opacity located_at lung @ present" ∈
        pySplitChar '\n' "opacity located_at lung  @ present\nlung @ present\n" :=
  ⟨rfl, by decide, by decide⟩

/-- Claim C1 (amended): the round-trip scenario yields exactly the lines
`"opacity located_at lung  @ present"` (two spaces before `"@"`) for
entity `"1"` and `"lung @ present"` for entity `"2"`, each on its own
line, with no section headers. -/
theorem C1_no_sep_roundtrip :
    serialize_graph_by_entities c1obj "no_sep" false =
      .ok "opacity located_at lung  @ present\nlung @ present\n"
    ∧ pySplitChar '\n' "opacity located_at lung  @ present\nlung @ present\n" =
      ["opacity located_at lung  @ present", "lung @ present", ""] :=
  ⟨rfl, by decide⟩

/-- Claim C2 (counterexample): a dangling relation target is NOT always a
lookup error.  For an entity whose relations are all `located_at`, number
more than one, and whose label lacks `"DP"`, the relation loop is skipped
entirely, so its dangling targets `"9"` and `"8"` are silently ignored
and serialization succeeds. -/
theorem C2_dangling_target_counterexample :
    dictGet c2map "9" = .error (.keyError "9")
    ∧ dictGet c2map "8" = .error (.keyError "8")
    ∧ serialize_node c2map "1" "@ " = .ok "edema @ absent" :=
  ⟨rfl, rfl, rfl⟩

/-- Claim C2 (amended): serializing an entity that has a relation whose
target id is absent from the entity map fails with a `KeyError`, EXCEPT
in the one branch that never looks targets up: all relations
`located_at`, more than one of them, and a label not containing `"DP"`
(there the relation words are suppressed and the dangling target is
silently skipped). -/
theorem C2_dangling_target_errors
    (graph_obj : EntityMap) (source_node stem : String) (ent : Entity)
    (hsrc : dictGet graph_obj source_node = .ok ent)
    (hprec : ∀ r ∈ ent.relations, (relation_precedence r.1).isSome = true)
    (hdangle : ∃ r ∈ ent.relations, dictGet graph_obj r.2 = .error (.keyError r.2))
    (hexempt : ¬(typesEq ent.relations "located_at" = true ∧ 1 < ent.relations.length ∧
        containsSub ent.label "DP" = false)) :
    ∃ k, serialize_node graph_obj source_node stem = .error (PyErr.keyError k) := by
  obtain ⟨ps, hps⟩ := checkPrecedences_ok hprec
  have hdangle' : ∃ r ∈ sorted_relations ent.relations,
      dictGet graph_obj r.2 = .error (.keyError r.2) := by
    rcases hdangle with ⟨r, hr, hd⟩
    exact ⟨r, mem_pySorted.mpr hr, hd⟩
  have hne : ¬ ent.relations.length = 0 := by
    rcases hdangle with ⟨r0, hr0, _⟩
    cases hrel : ent.relations with
    | nil => rw [hrel] at hr0; cases hr0
    | cons a l => simp [hrel]
  simp only [serialize_node, hsrc, hps, except_bind_ok]
  by_cases hmod : typesEq ent.relations "modify" = true ∧ 1 < ent.relations.length
  · rcases renderTargets_error hdangle' with ⟨k, hk⟩
    refine ⟨k, ?_⟩
    rw [if_neg hne, if_pos hmod]
    simp only [hk]
    rfl
  · by_cases hloc : typesEq ent.relations "located_at" = true ∧ 1 < ent.relations.length
    · have hdp : containsSub ent.label "DP" = true := by
        rcases Bool.eq_false_or_eq_true (containsSub ent.label "DP") with h | h
        · exact h
        · exact absurd ⟨hloc.1, hloc.2, h⟩ hexempt
      rcases renderRelTargets_error hdangle' with ⟨k, hk⟩
      refine ⟨k, ?_⟩
      rw [if_neg hne, if_neg hmod, if_pos hloc, if_pos hdp]
      simp only [hk]
      rfl
    · rcases @renderGeneral_error graph_obj ent.tokens (sorted_relations ent.relations) hdangle' with ⟨k, hk⟩
      refine ⟨k, ?_⟩
      rw [if_neg hne, if_neg hmod, if_neg hloc]
      simp only [hk]
      rfl

/-- Claim C2 witness: a present entity with one dangling `located_at`
relation makes `serialize_node` raise a `KeyError`. -/
theorem C2_dangling_target_errors_witness :
    ∃ k, serialize_node c2map2 "1" "@ " = .error (PyErr.keyError k) :=
  C2_dangling_target_errors c2map2 "1" "@ "
    (Entity.mk "OBS-DP" "edema" [("located_at", "9")] 0 1) rfl (by decide)
    ⟨("located_at", "9"), by decide, rfl⟩ (by decide)

/-- Claim C3 (code bug): `section_start` is specified to return the first
index where the header words plus colon occur, but the guard
`token_ix >= len(tokens) - len(header_tokens)` (commented as an
out-of-bounds check) also skips an in-bounds match that ends exactly at
the end of the token list: on `["FINDINGS", ":"]` the header occurs at
index 0 (third conjunct) yet the code returns `-1` (fourth conjunct).
The claim's two positive examples do hold (first two conjuncts). -/
theorem C3_section_start_end_of_list :
    section_start ["FINDINGS", ":", "no", "acute", "IMPRESSION", ":", "normal"] "FINDINGS" = 0
    ∧ section_start ["FINDINGS", ":", "no", "acute", "IMPRESSION", ":", "normal"]
        "IMPRESSION" = 4
    ∧ List.take 2 (List.drop 0 ["FINDINGS", ":"]) = (pySplitSpace "FINDINGS").map pyStrip ++ [":"]
    ∧ section_start ["FINDINGS", ":"] "FINDINGS" = -1 :=
  ⟨by decide, by decide, by decide, by decide⟩

/-- Claim C4 (counterexample): the union of the component node sets does
NOT always equal the set of entity ids: `build_graph` adds a node for the
dangling relation target `"2"` (via `add_edge`), so the single component
is `["1", "2"]` while the entity map has only the id `"1"`. -/
theorem C4_union_counterexample :
    get_subgraphs (build_graph c4map) = [["1", "2"]]
    ∧ c4map.map Prod.fst = ["1"]
    ∧ ¬ "2" ∈ c4map.map Prod.fst :=
  ⟨rfl, rfl, by decide⟩

/-- Claim C4 (amended): for an entity map with (dict-)unique ids, the
weakly-connected components returned by `get_subgraphs` partition the
NODE set of the built graph — every graph node (entity ids plus all
relation-target ids) lies in exactly one component — and every entity id
is a graph node, hence lies in exactly one component.  The union equals
the entity id set exactly when no relation target is dangling. -/
theorem C4_components_partition (entities : EntityMap)
    (h : (entities.map Prod.fst).Nodup) :
    (∀ x : String, (get_subgraphs (build_graph entities)).countP (fun c => decide (x ∈ c)) =
        if x ∈ (build_graph entities).nodes.map Prod.fst then 1 else 0)
    ∧ ∀ id ∈ entities.map Prod.fst, id ∈ (build_graph entities).nodes.map Prod.fst := by
  constructor
  · intro x
    have hnd := build_graph_nodes_nodup entities h
    have hbase := countP_singletons ((build_graph entities).nodes.map Prod.fst) x hnd
    show (mergeComponents (build_graph entities).edges
        ((build_graph entities).nodes.map (fun p => [p.1]))).countP _ = _
    have hmap : (build_graph entities).nodes.map (fun p => [p.1]) =
        ((build_graph entities).nodes.map Prod.fst).map (fun n => [n]) := by
      simp [List.map_map, Function.comp]
    rw [hmap, mergeComponents_invariant _ _ x (by rw [hbase]; split <;> omega), hbase]
  · intro id hid
    exact build_graph_mem_nodes entities id hid

/-- Claim C4 witness: in the C1 entity map, the entity id `"1"` lies in
exactly one weakly-connected component. -/
theorem C4_components_partition_witness :
    (get_subgraphs (build_graph c1map)).countP (fun c => decide ("1" ∈ c)) =
      if "1" ∈ (build_graph c1map).nodes.map Prod.fst then 1 else 0 :=
  (C4_components_partition c1map (by decide)).1 "1"

/-- Claim C5: `categorize_node` raises (a `ValueError`) exactly when both
section starts are the sentinel `-1` or the two starts coincide;
otherwise, with a FINDINGS range present it returns FINDINGS iff the
node span satisfies `start_ix >= findings_start` and
`end_ix < findings_end` and IMPRESSION otherwise, and with FINDINGS
absent it returns IMPRESSION iff the span lies in the impression range
and FINDINGS otherwise. -/
theorem C5_categorize_node_characterization (obj : RadObj) (node : String) (ent : Entity)
    (graph_obj : EntityMap) (hobj : obj.entities = some graph_obj)
    (hent : dictGet graph_obj node = .ok ent) (fs fe is_ ie : Int) :
    ((∃ msg, categorize_node obj node (fs, fe) (is_, ie) = .error (.valueError msg)) ↔
        ((fs = -1 ∧ is_ = -1) ∨ fs = is_))
    ∧ (fs ≠ is_ → fs ≠ -1 →
        ((categorize_node obj node (fs, fe) (is_, ie) = .ok "FINDINGS" ↔
            (ent.start_ix ≥ fs ∧ ent.end_ix < fe))
        ∧ (categorize_node obj node (fs, fe) (is_, ie) = .ok "IMPRESSION" ↔
            ¬(ent.start_ix ≥ fs ∧ ent.end_ix < fe))))
    ∧ (fs ≠ is_ → fs = -1 →
        ((categorize_node obj node (fs, fe) (is_, ie) = .ok "IMPRESSION" ↔
            (ent.start_ix ≥ is_ ∧ ent.end_ix < ie))
        ∧ (categorize_node obj node (fs, fe) (is_, ie) = .ok "FINDINGS" ↔
            ¬(ent.start_ix ≥ is_ ∧ ent.end_ix < ie)))) := by
  have hge : getEntities obj = .ok graph_obj := by simp [getEntities, hobj]
  simp only [categorize_node, hge, hent, except_bind_ok]
  refine ⟨?_, ?_, ?_⟩
  · split_ifs with h1 h2 h3 h4 <;> simp_all [except_pure]
  · intro hne hfs
    split_ifs with h1 h2 h3 h4 <;> simp_all [except_pure]
  · intro hne hfs
    split_ifs with h1 h2 h3 h4 <;> simp_all [except_pure]

/-- Claim C5 witness: with FINDINGS range `(0, 5)`, IMPRESSION range
`(6, 9)`, the C1 entity `"1"` (span `[0, 1)`) is categorized FINDINGS. -/
theorem C5_categorize_node_witness :
    categorize_node c1obj "1" (0, 5) (6, 9) = .ok "FINDINGS" :=
  ((C5_categorize_node_characterization c1obj "1"
        (Entity.mk "OBS-DP" "opacity" [("located_at", "2")] 0 1) c1map rfl rfl
        0 5 6 9).2.1 (by decide) (by decide)).1.mpr (by decide)

/-- Claim C6 (counterexample): the relation sort is NOT stable on lists
with a duplicated relation pair: in
`[("modify","A"), ("modify","B"), ("modify","A")]` all copies of
`("modify","A")` receive the last-occurrence index from the
`relation_queue` dict, so `("modify","B")` is sorted before the first
`("modify","A")`, breaking the original equal-type order. -/
theorem C6_stability_counterexample :
    List.Sublist [("modify", "A"), ("modify", "B")]
        [("modify", "A"), ("modify", "B"), ("modify", "A")]
    ∧ ¬ List.Sublist [("modify", "A"), ("modify", "B")]
        (sorted_relations [("modify", "A"), ("modify", "B"), ("modify", "A")])
    ∧ sorted_relations [("modify", "A"), ("modify", "B"), ("modify", "A")] =
        [("modify", "B"), ("modify", "A"), ("modify", "A")] :=
  ⟨by decide, by decide, by decide⟩

/-- Claim C6 (amended): `serialize_node` sorts relations by (precedence
with located_at=1, modify=2, suggestive_of=3, then list position), and on
relation lists without duplicate (type, target) pairs the sort is
stable: two equal-type relations keep their original relative order.
The claim's example sorts to located_at, modify, suggestive_of, and the
rendering respects that order. -/
theorem C6_relation_sort_stable :
    (∀ (relations : List (String × String)) (a b : String × String),
        relations.Nodup → List.Sublist [a, b] relations → a.1 = b.1 →
        List.Sublist [a, b] (sorted_relations relations))
    ∧ sorted_relations [("suggestive_of", "X"), ("located_at", "Y"), ("modify", "Z")] =
        [("located_at", "Y"), ("modify", "Z"), ("suggestive_of", "X")]
    ∧ serialize_node c6map "0" "@ " = .ok
        "opacity located_at lung , opacity right , opacity suggestive_of pneumonia  @ present" := by
  refine ⟨?_, by decide, rfl⟩
  intro relations a b hnd hsub hab
  apply pySorted_stable ?_ hsub
  have h1 := lastIdxOf_lt hnd hsub
  simp only [relationKey, pairKeyLE, hab]
  simp [Nat.le_of_lt h1]

/-- Claim C6 witness: two distinct `located_at` relations separated by a
`modify` relation keep their relative order in the sorted output. -/
theorem C6_relation_sort_stable_witness :
    List.Sublist [("located_at", "a"), ("located_at", "b")]
      (sorted_relations [("located_at", "a"), ("modify", "c"), ("located_at", "b")]) :=
  C6_relation_sort_stable.1 [("located_at", "a"), ("modify", "c"), ("located_at", "b")]
    ("located_at", "a") ("located_at", "b") (by decide) (by decide) rfl

/-- Claim C7: on a component whose nodes all carry attributes,
`serialize_subgraph` returns the node tokens in increasing order of the
ids read as integers, each followed by one space, preceded by at most
one modifier determined by the first node (in that order) whose label
contains `"DA"` or `"U"` — `"no "` when it contains `"DA"`, `"maybe "`
when it contains `"U"` only, nothing when no such node exists; and the
serialized node order is sorted by the integer id values. -/
theorem C7_serialize_subgraph_form (G : PyGraph) (subgraph : List String)
    (h : ∀ n ∈ subgraph, (nodeAttrOf G n).isOk = true) :
    serialize_subgraph subgraph G = .ok
      (componentModifier G (pySorted intLE pyIntOf subgraph) ++
        subgraphTokens G (pySorted intLE pyIntOf subgraph))
    ∧ (pySorted intLE pyIntOf subgraph).Pairwise (fun u v => pyIntOf u ≤ pyIntOf v) := by
  constructor
  · have h' : ∀ n ∈ pySorted intLE pyIntOf subgraph, (nodeAttrOf G n).isOk = true :=
      fun n hn => h n (mem_pySorted.mp hn)
    have hgo := serializeSubgraphGo_unmodified G (pySorted intLE pyIntOf subgraph) "" h'
    rw [serialize_subgraph, hgo, String.empty_append]
  · have htot : ∀ p q : Int, intLE p q = true ∨ intLE q p = true := by
      intro p q
      simp [intLE]
      omega
    have htrans : ∀ p q r : Int, intLE p q = true → intLE q r = true → intLE p r = true := by
      intro p q r
      simp [intLE]
      omega
    have hpw := @pySorted_pairwise Int String intLE pyIntOf htot htrans subgraph
    exact hpw.imp (fun hpq => by simpa [intLE] using hpq)

/-- Claim C7 witness: the component `{"2", "10", "1"}` of `c7graph`
serializes to `"no opacity lung effusion "` (ids sorted as integers
1 < 2 < 10, one `"no "` prefix from the first `DA` node). -/
theorem C7_serialize_subgraph_form_witness :
    serialize_subgraph ["2", "10", "1"] c7graph = .ok "no opacity lung effusion " := by
  rw [(C7_serialize_subgraph_form c7graph ["2", "10", "1"] (by decide)).1]
  rfl

/-- Claim C8: `section_end` on the example token list from FINDINGS start
0 returns 4: it finds the colon at index 5, whose preceding token
`"IMPRESSION"` is header-like (while `"acute"` is not), and backtracks
from 5 over the run of header-like tokens to the boundary 4. -/
theorem C8_section_end_example :
    section_end ["FINDINGS", ":", "no", "acute", "IMPRESSION", ":", "normal"] 0 "FINDINGS" = 4
    ∧ isHeaderPfx "IMPRESSION" = true
    ∧ isHeaderPfx "acute" = false
    ∧ backtrack_hdr ["FINDINGS", ":", "no", "acute", "IMPRESSION", ":", "normal"] 5 = 4 :=
  ⟨by decide, by decide, by decide, by decide⟩

/-- Claim C9: the dispatcher returns the `-1` "no labels" signal when
`"entities"` is absent and no key contains `"labeler"`; it returns the
`-2` "invalid method" signal (an int, not a string) for any method
outside the four valid names; and on the two-labeler object (keys given
in reverse order) it deterministically serializes the lexicographically
first labeler's entities (`labeler_1`, tokens `"cardiomegaly"`). -/
theorem C9_dispatcher_signals :
    (∀ (obj : RadObj) (method : String) (sep : Bool), obj.entities = none →
        (obj.labelers.map Prod.fst).filter (fun key => containsSub key "labeler") = [] →
        serialize_graph_report obj method sep = .ok (.pyInt ERROR_LABELS))
    ∧ (∀ (obj : RadObj) (method : String) (sep : Bool) (graph_obj : EntityMap),
        obj.entities = some graph_obj →
        method ≠ "subgraphs" → method ≠ "no_sep" → method ≠ "with_anat" →
          method ≠ "with_@_anat" →
        serialize_graph_report obj method sep = .ok (.pyInt ERROR_METHOD))
    ∧ serialize_graph_report c9obj "no_sep" false = .ok (.pyStr "cardiomegaly @ present\n")
    ∧ labelerKeys c9obj = ["labeler_1", "labeler_2"] := by
  refine ⟨?_, ?_, rfl, rfl⟩
  · intro obj method sep h1 h2
    simp only [serialize_graph_report, h1, labelerKeys, h2]
    rfl
  · intro obj method sep graph_obj hob h1 h2 h3 h4
    simp only [serialize_graph_report, hob, dispatchByMethod, if_neg h1,
      if_neg (show ¬(method = "no_sep" ∨ method = "with_anat" ∨ method = "with_@_anat") by
        rintro (h | h | h) <;> contradiction)]

/-- Claim C9 witness: an object with no entities and no labeler keys
yields the `-1` signal; a valid object with method `"bogus"` yields the
`-2` signal. -/
theorem C9_dispatcher_signals_witness :
    serialize_graph_report (RadObj.mk "" none []) "no_sep" false = .ok (.pyInt ERROR_LABELS)
    ∧ serialize_graph_report (RadObj.mk "" (some c9ents1) []) "bogus" false =
        .ok (.pyInt ERROR_METHOD) :=
  ⟨C9_dispatcher_signals.1 (RadObj.mk "" none []) "no_sep" false rfl rfl,
   C9_dispatcher_signals.2.1 (RadObj.mk "" (some c9ents1) []) "bogus" false c9ents1 rfl
     (by decide) (by decide) (by decide) (by decide)⟩

/-- Claim C10: for methods `with_anat` and `with_@_anat`, every
successful output of `serialize_graph_by_entities` — for either value of
`separate_findings_impression` — ends with the line
`"Anatomical structures present: <comma-joined ANAT-DP tokens>"`,
appended after the (possibly sectioned) assembly; when the graph has no
`ANAT-DP` entity the text after the colon is empty. -/
theorem C10_anat_trailer (obj : RadObj) (method_name : String) (sep : Bool) (s : String)
    (hm : method_name = "with_anat" ∨ method_name = "with_@_anat")
    (h : serialize_graph_by_entities obj method_name sep = .ok s) :
    ∃ graph_obj p, getEntities obj = .ok graph_obj ∧
      s = p ++ ("Anatomical structures present: " ++ anat_structures_str graph_obj ++ "\n") := by
  cases hge : getEntities obj with
  | error e =>
      rw [serialize_graph_by_entities] at h
      rw [hge, except_bind_error] at h
      cases h
  | ok graph_obj =>
      cases hb : entityBuckets obj graph_obj method_name with
      | error e =>
          rw [serialize_graph_by_entities, hge, except_bind_ok, hb, except_bind_error] at h
          cases h
      | ok buckets =>
          refine ⟨graph_obj, assemble buckets sep, rfl, ?_⟩
          rw [serialize_graph_by_entities, hge, except_bind_ok, hb, except_bind_ok] at h
          have hcond : method_name = "with_@_anat" ∨ method_name = "with_anat" := hm.symm
          rw [if_pos hcond] at h
          have := (Except.ok.injEq _ _).mp h
          rw [← this]
          simp [String.append_assoc]

/-- Claim C10 witness: the `with_anat` serialization of an object with
one observation entity, sectioned output, and no anatomical entity ends
with an empty-list trailer line. -/
theorem C10_anat_trailer_witness :
    ∃ graph_obj p, getEntities c10obj = .ok graph_obj ∧
      "FINDINGS AND IMPRESSION \nedema present\nAnatomical structures present: \n" =
        p ++ ("Anatomical structures present: " ++ anat_structures_str graph_obj ++ "\n") :=
  C10_anat_trailer c10obj "with_anat" true
    "FINDINGS AND IMPRESSION \nedema present\nAnatomical structures present: \n"
    (Or.inl rfl) rfl

end RadGraph
